import Mathlib

/-!
Verification of the service-key codec (`service_key`) of the qwik/qoot client.

The implementation file `service_key.js` is not part of the sources at hand;
only its unit tests are.  The definitions below are therefore modelled from
the specification of the codec, with the unit tests fixing the concrete
behaviour (exact error messages, the treatment of trailing empty segments,
and the zero-property case).  All operations are pure string transformations
returning `Except QError` for the typed faults the code throws.
-/

instance instDecEqExcept {ε : Type u} {α : Type v} [DecidableEq ε] [DecidableEq α] :
    DecidableEq (Except ε α) := fun a b =>
  match a, b with
  | .error x, .error y =>
    if h : x = y then isTrue (by rw [h]) else isFalse (fun he => h (Except.error.inj he))
  | .ok x, .ok y =>
    if h : x = y then isTrue (by rw [h]) else isFalse (fun he => h (Except.ok.inj he))
  | .error _, .ok _ => isFalse (fun he => Except.noConfusion he)
  | .ok _, .error _ => isFalse (fun he => Except.noConfusion he)

/-- The 26 ASCII upper-case letters paired with their lower-case equivalents.
Modelled from the spec: the escape scheme maps each upper-case letter to
`-` followed by its lower-case equivalent. -/
def upperLowerPairs : List (Char × Char) :=
  [('A','a'), ('B','b'), ('C','c'), ('D','d'), ('E','e'), ('F','f'), ('G','g'),
   ('H','h'), ('I','i'), ('J','j'), ('K','k'), ('L','l'), ('M','m'), ('N','n'),
   ('O','o'), ('P','p'), ('Q','q'), ('R','r'), ('S','s'), ('T','t'), ('U','u'),
   ('V','v'), ('W','w'), ('X','x'), ('Y','y'), ('Z','z')]

/-- `c` is an ASCII upper-case letter. -/
def isUpperAscii (c : Char) : Bool :=
  (upperLowerPairs.find? (fun p => p.1 == c)).isSome

/-- `c` is an ASCII lower-case letter. -/
def isLowerAscii (c : Char) : Bool :=
  (upperLowerPairs.find? (fun p => p.2 == c)).isSome

/-- The lower-case equivalent of an upper-case letter (identity otherwise). -/
def lowerChar (c : Char) : Char :=
  match upperLowerPairs.find? (fun p => p.1 == c) with
  | some p => p.2
  | none => c

/-- The upper-case equivalent of a lower-case letter (identity otherwise). -/
def upperCharOf (c : Char) : Char :=
  match upperLowerPairs.find? (fun p => p.2 == c) with
  | some p => p.1
  | none => c

/-- `c` is an ASCII letter (either case) or a decimal digit. -/
def isLetterOrDigitChar (c : Char) : Bool :=
  isUpperAscii c || isLowerAscii c || c.isDigit

/-- Modelled from the spec: the escaping of one character — an upper-case
letter becomes `-` followed by its lower-case equivalent, any other
character is emitted unchanged. -/
def escapeChar (c : Char) : List Char :=
  if isUpperAscii c then ['-', lowerChar c] else [c]

def escapeChars : List Char → List Char
  | [] => []
  | c :: cs => escapeChar c ++ escapeChars cs

/-- Modelled from the spec: `escape` applied to a whole string. -/
def escapeAttr (s : String) : String :=
  ⟨escapeChars s.data⟩

/-- Modelled from the spec: greedy unescaping — a `-` immediately followed by
a lower-case letter yields that letter upper-cased (consuming both), any
other character is emitted unchanged. -/
def unescapeChars : List Char → List Char
  | [] => []
  | [c] => [c]
  | c :: c2 :: cs =>
    if c = '-' ∧ isLowerAscii c2 = true then upperCharOf c2 :: unescapeChars cs
    else c :: unescapeChars (c2 :: cs)

/-- Modelled from the spec: `unescape` applied to a whole segment. -/
def unescapeAttr (s : String) : String :=
  ⟨unescapeChars s.data⟩

/-- Modelled from the spec: the descriptor's dash-name — the escape scheme
applied to its `$type` display name (`myService` becomes `my-service`). -/
def toDashName (s : String) : String :=
  escapeAttr s

/-- `c` is in the restricted key alphabet `[a-z0-9_-]`. -/
def isValidAttrChar (c : Char) : Bool :=
  isLowerAscii c || c.isDigit || c == '-' || c == '_'

/-- The typed faults thrown by the codec, one constructor per fault kind. -/
inductive QError where
  | invalidKeyFormat (key : String)
  | invalidAttributeChar (attr : String)
  | missingValues (key : String)
  | missingKeyProps (serviceName : String)
  | tooManySegments (serviceName : String) (props : List String) (key : String)
  | kindMismatch (key : String) (found : String) (serviceName : String) (expected : String)
  | missingStateKey (state : String)
deriving DecidableEq

/-- The JSON rendering of a list of property names, as interpolated into the
`Q-314` message (`["a","propB","c"]`). -/
def jsonStringList (props : List String) : String :=
  "[" ++ String.intercalate "," (props.map fun p => "\"" ++ p ++ "\"") ++ "]"

/-- The full human-readable message of each fault, exactly as asserted by the
unit tests of the source. -/
def qErrorMessage : QError → String
  | .invalidKeyFormat key =>
      "SERVICE-ERROR(Q-300): Data key '" ++ key ++ "' is not a valid key.\n" ++
      "  - Data key can only contain characters (preferably lowercase) or number\n" ++
      "  - Data key is prefixed with service name\n" ++
      "  - Data key is made up from parts that are separated with ':'."
  | .invalidAttributeChar attr =>
      "SERVICE-ERROR(Q-303): '" ++ attr ++
      "' is not a valid attribute. Attributes can only contain 'a-z' (lowercase), '0-9', '-' and '_'."
  | .missingValues key =>
      "SERVICE-ERROR(Q-309): Service key '" ++ key ++ "' is missing values. Expecting '" ++
      key ++ ":someValue'."
  | .missingKeyProps serviceName =>
      "SERVICE-ERROR(Q-311): Service '" ++ serviceName ++ "' does not define '$keyProps'."
  | .tooManySegments serviceName props key =>
      "SERVICE-ERROR(Q-314): Service '" ++ serviceName ++ "' defines '$keyProps' as  '" ++
      jsonStringList props ++ "'. Actual key '" ++ key ++ "' has more parts than service defines."
  | .kindMismatch key fnd serviceName expected =>
      "SERVICE-ERROR(Q-315): Key '" ++ key ++ "' belongs to service named '" ++ fnd ++
      "', but expected service '" ++ serviceName ++ "' with name '" ++ expected ++ "'."
  | .missingStateKey state =>
      "SERVICE-ERROR(Q-316): Service state is missing '$key'. Are you sure you passed in state? Got '" ++
      state ++ "'."

/-- An entity descriptor: the class name (used in error messages), the `$type`
display name (from which the dash-name is derived), and the optional ordered
`$keyProps` list (`none` models a service that does not define `$keyProps`). -/
structure ServiceConstructor where
  className : String
  type : String
  keyProps : Option (List String)
deriving DecidableEq

/-- A property map: property name to string value or `null` (`none`). -/
abbrev ServiceProps := List (String × Option String)

/-- Look up a property; an absent entry and an explicit `null` both yield
`none` (the source treats `undefined` and `null` values alike). -/
def lookupProp (props : ServiceProps) (name : String) : Option String :=
  match props.find? (fun kv => kv.1 == name) with
  | none => none
  | some kv => kv.2

/-- Modelled from the spec: `normalize` fills absent or `null` entries
consistently, producing one entry per declared property. -/
def normalizeProps (keyProps : List String) (props : ServiceProps) : ServiceProps :=
  keyProps.map (fun name => (name, lookupProp props name))

/-- The property named `p` is present in `m` with a nonempty value made of
letters and digits only. -/
def presentLetterDigit (m : ServiceProps) (p : String) : Bool :=
  match lookupProp m p with
  | some v => (!v.isEmpty) && v.data.all isLetterOrDigitChar
  | none => false

/-- Modelled from the spec: `validatePart` — identity on strings over the
restricted alphabet `[a-z0-9_-]`, `InvalidAttributeChar` otherwise. -/
def validateKeyPart (s : String) : Except QError String :=
  if s.data.all isValidAttrChar then .ok s else .error (.invalidAttributeChar s)

/-- Modelled from the spec: the encoder's value segments, in declared order —
`null`/absent maps to the empty segment, any other value is escaped and then
run through the validator (fail-fast on the first invalid segment). -/
def segmentsOf : List String → ServiceProps → Except QError (List String)
  | [], _ => .ok []
  | name :: rest, props =>
    match validateKeyPart (match lookupProp props name with
                           | none => ""
                           | some v => escapeAttr v) with
    | .error e => .error e
    | .ok seg =>
      match segmentsOf rest props with
      | .error e => .error e
      | .ok segs => .ok (seg :: segs)

/-- Join segments with `:` (the `:`-join of the key grammar). -/
def joinColon : List String → String
  | [] => ""
  | [s] => s
  | s :: rest => s ++ ":" ++ joinColon rest

/-- Emit the final key from the dash-name and the (possibly failed) segment
computation. -/
def keyFromSegments (dash : String) : Except QError (List String) → Except QError String
  | .error e => .error e
  | .ok segs => .ok (dash ++ ":" ++ joinColon segs)

/-- Modelled from the spec: `propsToKey` — fail with `MissingKeyProps` when
the descriptor declares no `$keyProps`, otherwise emit
`<dash-name>:<segments joined by ':'>`. -/
def propsToKey (service : ServiceConstructor) (props : ServiceProps) : Except QError String :=
  match service.keyProps with
  | none => .error (.missingKeyProps service.className)
  | some keyProps =>
    keyFromSegments (toDashName service.type) (segmentsOf keyProps props)

/-- Split a character list on `:`; the empty list yields one empty chunk and
a list with N occurrences of `:` yields N+1 chunks. -/
def splitOnColon : List Char → List (List Char)
  | [] => [[]]
  | c :: cs =>
    if c = ':' then [] :: splitOnColon cs
    else
      match splitOnColon cs with
      | [] => [[c]]
      | s :: ss => (c :: s) :: ss

/-- The decoder's value segments of a key remainder: an empty remainder has
no segments (its single empty chunk stands for the zero-segment key shape,
as fixed by the unit tests), a nonempty remainder is split on `:`. -/
def splitSegments (rest : List Char) : List (List Char) :=
  if rest = [] then [] else splitOnColon rest

/-- The decoder's positional assignment: a raw segment is unescaped and
stored, except that an empty segment in final position stands for an absent
value (`none`), and properties beyond the segment list get `none` (as fixed
by the unit tests). -/
def assignProps : List String → List (List Char) → ServiceProps
  | [], _ => []
  | name :: names, [] => (name, none) :: assignProps names []
  | name :: names, [part] =>
    (name, if part.isEmpty then none else some (unescapeAttr ⟨part⟩)) :: assignProps names []
  | name :: names, part :: parts =>
    (name, some (unescapeAttr ⟨part⟩)) :: assignProps names parts

/-- The stage of the decoder that runs after the key has been split on `:`:
gate on the descriptor's dash-name (`KindMismatch`), bound the segment count
(`TooManySegments`), then assign segment values positionally. -/
def keyToPropsChecked (cn expected : String) (keyProps : List String) (key : String)
    (fnd : String) (moreParts : List (List Char)) : Except QError ServiceProps :=
  if fnd = expected then
    let parts := if moreParts = [[]] then [] else moreParts
    if keyProps.length < parts.length then
      .error (.tooManySegments cn keyProps key)
    else
      .ok (assignProps keyProps parts)
  else
    .error (.kindMismatch key fnd cn expected)

/-- Modelled from the spec: `keyToProps` — check `$keyProps` is declared,
split off the kind token before the first `:` (failing with `MissingValues`
when there is none), then gate, bound and assign via `keyToPropsChecked`. -/
def keyToProps (service : ServiceConstructor) (key : String) : Except QError ServiceProps :=
  match service.keyProps with
  | none => .error (.missingKeyProps service.className)
  | some keyProps =>
    match splitOnColon key.data with
    | [] => .error (.missingValues key)
    | [_] => .error (.missingValues key)
    | kindToken :: moreParts =>
      keyToPropsChecked service.className (toDashName service.type) keyProps key
        ⟨kindToken⟩ moreParts

/-- Modelled from the spec: `keyToServiceAttribute` — fail with
`InvalidKeyFormat` when the key has no `:` at all, otherwise wrap the
substring before the first `:` in the `::` attribute marker. -/
def keyToServiceAttribute (key : String) : Except QError String :=
  match splitOnColon key.data with
  | [] => .error (.invalidKeyFormat key)
  | [_] => .error (.invalidKeyFormat key)
  | kindToken :: _ => .ok ("::" ++ (⟨kindToken⟩ : String))

/-- A JSON scalar, enough to render the state objects of the source tests. -/
inductive JsonValue where
  | str (s : String)
  | num (n : Int)
deriving DecidableEq

def jsonValueString : JsonValue → String
  | .str s => "\"" ++ s ++ "\""
  | .num n => toString n

def jsonObjectString (fields : List (String × JsonValue)) : String :=
  "\x7b" ++ String.intercalate "," (fields.map fun kv => "\"" ++ kv.1 ++ "\":" ++ jsonValueString kv.2) ++ "\x7d"

/-- Modelled from the spec: `serviceStateKey` — return the `$key` field of a
materialized state object, failing with `MissingStateKey` (including a JSON
rendering of the object) when it is absent. -/
def serviceStateKey (state : List (String × JsonValue)) : Except QError String :=
  match state.find? (fun kv => kv.1 == "$key") with
  | some (_, .str k) => .ok k
  | _ => .error (.missingStateKey (jsonObjectString state))

/-- Modelled from the spec (amended by the unit tests): the decoded value of
the declared property at position `i`, described positionally — a segment at
`i` is unescaped and stored, an empty segment in final position and a
missing segment both yield `null`. -/
def decodedValueAt (parts : List (List Char)) (i : Nat) : Option String :=
  match parts.drop i with
  | [] => none
  | [part] => if part = [] then none else some (unescapeAttr ⟨part⟩)
  | part :: _ :: _ => some (unescapeAttr ⟨part⟩)

/-- The `MockService` descriptor of the unit tests. -/
def MockD : ServiceConstructor :=
  ⟨"MockService", "myService", some ["a", "propB", "c"]⟩

/-- A two-property descriptor used for counterexamples. -/
def TwoD : ServiceConstructor :=
  ⟨"TwoService", "two", some ["a", "b"]⟩

/-! ## Basic facts about the character tables and the escaper -/

theorem table_check : upperLowerPairs.all
    (fun p => isLowerAscii p.2 && (upperCharOf p.2 == p.1) && isValidAttrChar p.2) = true := by
  decide

theorem upper_facts (c : Char) (h : isUpperAscii c = true) :
    isLowerAscii (lowerChar c) = true ∧ upperCharOf (lowerChar c) = c ∧
    isValidAttrChar (lowerChar c) = true := by
  unfold isUpperAscii at h
  cases hf : upperLowerPairs.find? (fun p => p.1 == c) with
  | none => rw [hf] at h; simp at h
  | some p =>
    have hmem : p ∈ upperLowerPairs := List.mem_of_find?_eq_some hf
    have hpc : p.1 = c := by
      have := List.find?_some hf
      simpa using this
    have hl : lowerChar c = p.2 := by unfold lowerChar; rw [hf]
    have hall := List.all_eq_true.mp table_check p hmem
    simp only [Bool.and_eq_true, beq_iff_eq] at hall
    refine ⟨?_, ?_, ?_⟩
    · rw [hl]; exact hall.1.1
    · rw [hl, hall.1.2, hpc]
    · rw [hl]; exact hall.2

theorem letterDigit_ne_dash (c : Char) (h : isLetterOrDigitChar c = true) : c ≠ '-' := by
  intro he
  rw [he] at h
  exact absurd h (by decide)

theorem valid_ne_colon (c : Char) (h : isValidAttrChar c = true) : c ≠ ':' := by
  intro he
  rw [he] at h
  exact absurd h (by decide)

theorem valid_of_letterDigit_not_upper (c : Char) (h : isLetterOrDigitChar c = true)
    (hu : isUpperAscii c = false) : isValidAttrChar c = true := by
  unfold isLetterOrDigitChar at h
  rw [hu] at h
  simp only [Bool.false_or, Bool.or_eq_true] at h
  unfold isValidAttrChar
  rcases h with h | h <;> simp [h]

theorem unescapeChars_cons_ne (c : Char) (h : c ≠ '-') (cs : List Char) :
    unescapeChars (c :: cs) = c :: unescapeChars cs := by
  cases cs with
  | nil => rfl
  | cons c2 cs2 =>
    simp only [unescapeChars]
    rw [if_neg (fun hc => h hc.1)]

theorem unescape_escape_chars : ∀ cs : List Char,
    (∀ c ∈ cs, isLetterOrDigitChar c = true) →
    unescapeChars (escapeChars cs) = cs := by
  intro cs h
  induction cs with
  | nil => rfl
  | cons c cs ih =>
    have hc : isLetterOrDigitChar c = true := h c (List.mem_cons_self c cs)
    have hrest : ∀ x ∈ cs, isLetterOrDigitChar x = true :=
      fun x hx => h x (List.mem_cons_of_mem c hx)
    show unescapeChars (escapeChar c ++ escapeChars cs) = c :: cs
    by_cases hu : isUpperAscii c = true
    · obtain ⟨h1, h2, _⟩ := upper_facts c hu
      rw [escapeChar, if_pos hu]
      show (if ('-' : Char) = '-' ∧ isLowerAscii (lowerChar c) = true then
              upperCharOf (lowerChar c) :: unescapeChars (escapeChars cs)
            else '-' :: unescapeChars (lowerChar c :: escapeChars cs)) = c :: cs
      rw [if_pos ⟨rfl, h1⟩, h2, ih hrest]
    · rw [escapeChar, if_neg hu]
      show unescapeChars (c :: escapeChars cs) = c :: cs
      rw [unescapeChars_cons_ne c (letterDigit_ne_dash c hc) (escapeChars cs), ih hrest]

theorem escapeChars_valid : ∀ cs : List Char,
    (∀ c ∈ cs, isLetterOrDigitChar c = true) →
    ∀ d ∈ escapeChars cs, isValidAttrChar d = true := by
  intro cs h
  induction cs with
  | nil => intro d hd; simp [escapeChars] at hd
  | cons c cs ih =>
    intro d hd
    have hc : isLetterOrDigitChar c = true := h c (List.mem_cons_self c cs)
    have hrest : ∀ x ∈ cs, isLetterOrDigitChar x = true :=
      fun x hx => h x (List.mem_cons_of_mem c hx)
    have hd2 : d ∈ escapeChar c ++ escapeChars cs := hd
    rcases List.mem_append.mp hd2 with hd1 | hd1
    · by_cases hu : isUpperAscii c = true
      · rw [escapeChar, if_pos hu] at hd1
        simp only [List.mem_cons, List.mem_singleton, List.not_mem_nil, or_false] at hd1
        rcases hd1 with rfl | rfl
        · decide
        · exact (upper_facts c hu).2.2
      · rw [escapeChar, if_neg hu] at hd1
        simp only [List.mem_singleton] at hd1
        rw [hd1]
        exact valid_of_letterDigit_not_upper c hc (by simpa using hu)
    · exact ih hrest d hd1

theorem escapeChar_ne_nil (c : Char) : escapeChar c ≠ [] := by
  unfold escapeChar
  by_cases h : isUpperAscii c = true
  · rw [if_pos h]; simp
  · rw [if_neg h]; simp

theorem escapeChars_ne_nil (cs : List Char) (h : cs ≠ []) : escapeChars cs ≠ [] := by
  cases cs with
  | nil => exact absurd rfl h
  | cons c cs =>
    show escapeChar c ++ escapeChars cs ≠ []
    intro he
    exact escapeChar_ne_nil c (List.append_eq_nil.mp he).1

/-! ## String-level helpers -/

theorem string_ext {a b : String} (h : a.data = b.data) : a = b := by
  cases a with
  | mk da => cases b with
    | mk db => exact congrArg String.mk h

theorem data_append (a b : String) : (a ++ b).data = a.data ++ b.data := rfl

theorem data_ne_nil_of_ne_empty {s : String} (h : s ≠ "") : s.data ≠ [] := by
  intro he
  exact h (string_ext (by rw [he]))

theorem ne_empty_of_data_ne_nil {s : String} (h : s.data ≠ []) : s ≠ "" := by
  intro he
  rw [he] at h
  exact h rfl

theorem unescapeAttr_escapeAttr (s : String) (h : s.data.all isLetterOrDigitChar = true) :
    unescapeAttr (escapeAttr s) = s := by
  apply string_ext
  show unescapeChars (escapeChars s.data) = s.data
  exact unescape_escape_chars s.data (fun c hc => List.all_eq_true.mp h c hc)

/-! ## Splitting and joining on the colon -/

theorem splitOnColon_ne_nil : ∀ cs : List Char, splitOnColon cs ≠ [] := by
  intro cs
  induction cs with
  | nil => simp [splitOnColon]
  | cons c cs ih =>
    rw [splitOnColon]
    by_cases h : c = ':'
    · rw [if_pos h]; simp
    · rw [if_neg h]
      cases hs : splitOnColon cs with
      | nil => simp
      | cons s ss => simp

theorem splitOnColon_first : ∀ (tok rest : List Char), ':' ∉ tok →
    splitOnColon (tok ++ ':' :: rest) = tok :: splitOnColon rest := by
  intro tok
  induction tok with
  | nil =>
    intro rest _
    show splitOnColon (':' :: rest) = [] :: splitOnColon rest
    rw [splitOnColon, if_pos rfl]
  | cons c tok ih =>
    intro rest h
    have hc : c ≠ ':' := fun he => h (he ▸ List.mem_cons_self c tok)
    have ht : ':' ∉ tok := fun hm => h (List.mem_cons_of_mem c hm)
    show splitOnColon (c :: (tok ++ ':' :: rest)) = (c :: tok) :: splitOnColon rest
    rw [splitOnColon, if_neg hc, ih rest ht]

theorem splitOnColon_no_colon : ∀ cs : List Char, ':' ∉ cs → splitOnColon cs = [cs] := by
  intro cs
  induction cs with
  | nil => intro _; rfl
  | cons c cs ih =>
    intro h
    have hc : c ≠ ':' := fun he => h (he ▸ List.mem_cons_self c cs)
    have ht : ':' ∉ cs := fun hm => h (List.mem_cons_of_mem c hm)
    rw [splitOnColon, if_neg hc, ih ht]

theorem splitOnColon_length : ∀ cs : List Char,
    (splitOnColon cs).length = cs.count ':' + 1 := by
  intro cs
  induction cs with
  | nil => rfl
  | cons c cs ih =>
    rw [splitOnColon]
    by_cases h : c = ':'
    · rw [if_pos h]
      simp [List.count_cons, h, ih]
    · rw [if_neg h]
      cases hs : splitOnColon cs with
      | nil => exact absurd hs (splitOnColon_ne_nil cs)
      | cons s ss =>
        rw [hs] at ih
        simp only [List.length_cons] at ih ⊢
        have hcc : (c == ':') = false := by simpa using h
        simp [List.count_cons, hcc, ih]

theorem splitOnColon_eq_single_nil : ∀ cs : List Char, splitOnColon cs = [[]] ↔ cs = [] := by
  intro cs
  constructor
  · intro h
    cases cs with
    | nil => rfl
    | cons c cs =>
      rw [splitOnColon] at h
      by_cases hc : c = ':'
      · rw [if_pos hc] at h
        have : splitOnColon cs = [] := (List.cons.inj h).2
        exact absurd this (splitOnColon_ne_nil cs)
      · rw [if_neg hc] at h
        cases hs : splitOnColon cs with
        | nil => rw [hs] at h; simp at h
        | cons s ss => rw [hs] at h; simp at h
  · intro h
    rw [h]
    rfl

theorem joinColon_data_cons (s s2 : String) (segs : List String) :
    (joinColon (s :: s2 :: segs)).data = s.data ++ ':' :: (joinColon (s2 :: segs)).data := by
  show ((s ++ ":" ++ joinColon (s2 :: segs))).data = _
  rw [data_append, data_append]
  rw [List.append_assoc]
  rfl

theorem splitOnColon_join : ∀ segs : List String, segs ≠ [] →
    (∀ s ∈ segs, ':' ∉ s.data) →
    splitOnColon (joinColon segs).data = segs.map String.data := by
  intro segs
  induction segs with
  | nil => intro h; exact absurd rfl h
  | cons s segs ih =>
    intro _ h
    cases segs with
    | nil =>
      show splitOnColon s.data = [s.data]
      exact splitOnColon_no_colon s.data (h s (List.mem_cons_self s []))
    | cons s2 segs2 =>
      rw [joinColon_data_cons]
      rw [splitOnColon_first s.data _ (h s (List.mem_cons_self s (s2 :: segs2)))]
      rw [ih (by simp) (fun x hx => h x (List.mem_cons_of_mem s hx))]
      rfl

theorem joinColon_data_ne_nil (s : String) (segs : List String) (hs : s ≠ "") :
    (joinColon (s :: segs)).data ≠ [] := by
  cases segs with
  | nil => exact data_ne_nil_of_ne_empty hs
  | cons s2 segs2 =>
    rw [joinColon_data_cons]
    intro he
    rcases List.append_eq_nil.mp he with ⟨_, h2⟩
    cases h2

theorem splitSegments_join (segs : List String)
    (h : ∀ s ∈ segs, ':' ∉ s.data ∧ s ≠ "") :
    splitSegments (joinColon segs).data = segs.map String.data := by
  cases segs with
  | nil => rfl
  | cons s segs =>
    have hne : (joinColon (s :: segs)).data ≠ [] :=
      joinColon_data_ne_nil s segs (h s (List.mem_cons_self s segs)).2
    unfold splitSegments
    rw [if_neg hne]
    exact splitOnColon_join (s :: segs) (by simp) (fun x hx => (h x hx).1)

/-! ## Decoder path lemmas -/

theorem key_data (ty : String) (rest : List Char) :
    (toDashName ty ++ ":" ++ (⟨rest⟩ : String)).data = (toDashName ty).data ++ ':' :: rest := by
  rw [data_append, data_append]
  rw [List.append_assoc]
  rfl

theorem keyToProps_eq_checked (cn ty : String) (ps : List String) (key : String)
    (a b : List Char) (l : List (List Char))
    (hsplit : splitOnColon key.data = a :: b :: l) :
    keyToProps ⟨cn, ty, some ps⟩ key =
      keyToPropsChecked cn (toDashName ty) ps key ⟨a⟩ (b :: l) := by
  unfold keyToProps
  rw [hsplit]

theorem keyToProps_split (cn ty : String) (ps : List String) (rest : List Char)
    (hd : ':' ∉ (toDashName ty).data) :
    keyToProps ⟨cn, ty, some ps⟩ (toDashName ty ++ ":" ++ (⟨rest⟩ : String)) =
      if ps.length < (splitSegments rest).length then
        .error (.tooManySegments cn ps (toDashName ty ++ ":" ++ (⟨rest⟩ : String)))
      else
        .ok (assignProps ps (splitSegments rest)) := by
  cases hs : splitOnColon rest with
  | nil => exact absurd hs (splitOnColon_ne_nil rest)
  | cons s ss =>
    have hsplit : splitOnColon ((toDashName ty ++ ":" ++ (⟨rest⟩ : String)).data) =
        (toDashName ty).data :: s :: ss := by
      rw [key_data, splitOnColon_first _ _ hd, hs]
    rw [keyToProps_eq_checked cn ty ps _ _ _ _ hsplit]
    unfold keyToPropsChecked
    rw [if_pos (string_ext rfl)]
    have hparts : (if s :: ss = [[]] then [] else s :: ss) = splitSegments rest := by
      unfold splitSegments
      by_cases hr : rest = []
      · subst hr
        have : s :: ss = [[]] := by rw [← hs]; rfl
        rw [if_pos this, if_pos rfl]
      · have : ¬(s :: ss = [[]]) := by
          rw [← hs]
          intro hcontra
          exact hr ((splitOnColon_eq_single_nil rest).mp hcontra)
        rw [if_neg this, if_neg hr, hs]
    rw [hparts]

theorem ktsa_of_split (key : String) (a b : List Char) (l : List (List Char))
    (hsplit : splitOnColon key.data = a :: b :: l) :
    keyToServiceAttribute key = .ok ("::" ++ (⟨a⟩ : String)) := by
  unfold keyToServiceAttribute
  rw [hsplit]

theorem ktsa_no_colon (key : String) (h : ':' ∉ key.data) :
    keyToServiceAttribute key = .error (.invalidKeyFormat key) := by
  unfold keyToServiceAttribute
  rw [splitOnColon_no_colon key.data h]

/-! ## The encoder and the round trip -/

theorem segmentsOf_spec : ∀ (ps : List String) (m : ServiceProps),
    (∀ p ∈ ps, presentLetterDigit m p = true) →
    ∃ segs : List String,
      segmentsOf ps m = .ok segs ∧
      segs.length = ps.length ∧
      (∀ s ∈ segs, ':' ∉ s.data ∧ s ≠ "") ∧
      assignProps ps (segs.map String.data) = normalizeProps ps m := by
  intro ps
  induction ps with
  | nil =>
    intro m _
    exact ⟨[], rfl, rfl, by simp, rfl⟩
  | cons p ps ih =>
    intro m h
    have hp := h p (List.mem_cons_self p ps)
    unfold presentLetterDigit at hp
    cases hv : lookupProp m p with
    | none => rw [hv] at hp; simp at hp
    | some v =>
      rw [hv] at hp
      simp only [Bool.and_eq_true] at hp
      have hvne : v ≠ "" := by
        intro he
        rw [he] at hp
        exact absurd hp.1 (by decide)
      have hvld : ∀ c ∈ v.data, isLetterOrDigitChar c = true :=
        fun c hc => List.all_eq_true.mp hp.2 c hc
      obtain ⟨segs, hok, hlen, hprop, hassign⟩ :=
        ih m (fun q hq => h q (List.mem_cons_of_mem p hq))
      have hvalid : (escapeAttr v).data.all isValidAttrChar = true :=
        List.all_eq_true.mpr (escapeChars_valid v.data hvld)
      have hval : validateKeyPart (escapeAttr v) = .ok (escapeAttr v) := by
        unfold validateKeyPart
        rw [if_pos hvalid]
      have hseg_colon : ':' ∉ (escapeAttr v).data := by
        intro hmem
        exact absurd (List.all_eq_true.mp hvalid ':' hmem) (by decide)
      have hseg_ne : escapeAttr v ≠ "" := by
        apply ne_empty_of_data_ne_nil
        show escapeChars v.data ≠ []
        exact escapeChars_ne_nil v.data (data_ne_nil_of_ne_empty hvne)
      refine ⟨escapeAttr v :: segs, ?_, by simp [hlen], ?_, ?_⟩
      · show segmentsOf (p :: ps) m = .ok (escapeAttr v :: segs)
        unfold segmentsOf
        rw [hv, hval, hok]
      · intro s hs
        rcases List.mem_cons.mp hs with rfl | hs
        · exact ⟨hseg_colon, hseg_ne⟩
        · exact hprop s hs
      · have hunesc : unescapeAttr ⟨(escapeAttr v).data⟩ = v :=
          unescapeAttr_escapeAttr v hp.2
        have hnorm : normalizeProps (p :: ps) m = (p, some v) :: normalizeProps ps m := by
          unfold normalizeProps
          rw [List.map_cons, hv]
        cases hsegs : segs with
        | nil =>
          have hps : ps = [] := by
            rw [hsegs] at hlen
            exact (List.eq_nil_of_length_eq_zero hlen.symm)
          subst hps
          show assignProps [p] [(escapeAttr v).data] = normalizeProps [p] m
          unfold assignProps
          rw [if_neg (by simpa using data_ne_nil_of_ne_empty hseg_ne)]
          rw [hunesc]
          unfold normalizeProps
          rw [List.map_cons, hv]
          rfl
        | cons s2 segs2 =>
          rw [hsegs] at hassign hlen
          rw [List.map_cons] at hassign
          show assignProps (p :: ps) ((escapeAttr v).data :: s2.data :: segs2.map String.data) =
            normalizeProps (p :: ps) m
          rw [hnorm]
          show (p, some (unescapeAttr ⟨(escapeAttr v).data⟩)) ::
              assignProps ps (s2.data :: segs2.map String.data) = _
          rw [hunesc, hassign]

/-! ## Positional description of the decoder assignment -/

theorem decodedValueAt_nil_parts (i : Nat) : decodedValueAt [] i = none := by
  unfold decodedValueAt
  rw [List.drop_nil]

theorem decodedValueAt_succ (part : List Char) (parts : List (List Char)) (i : Nat) :
    decodedValueAt (part :: parts) (i + 1) = decodedValueAt parts i := by
  unfold decodedValueAt
  rw [List.drop_succ_cons]

theorem assignProps_eq_positional : ∀ (ps : List String) (parts : List (List Char)),
    parts.length ≤ ps.length →
    assignProps ps parts =
      (List.range ps.length).map (fun i => (ps.getD i "", decodedValueAt parts i)) := by
  intro ps
  induction ps with
  | nil =>
    intro parts h
    have hp : parts = [] := List.eq_nil_of_length_eq_zero (Nat.le_zero.mp h)
    subst hp
    rfl
  | cons p ps ih =>
    intro parts h
    have hr : List.range (ps.length + 1) = 0 :: (List.range ps.length).map Nat.succ :=
      List.range_succ_eq_map ps.length
    cases parts with
    | nil =>
      show (p, none) :: assignProps ps [] = _
      rw [show (p :: ps).length = ps.length + 1 from rfl, hr, List.map_cons, List.map_map]
      congr 1
      rw [ih [] (Nat.zero_le _)]
      congr 1
      funext i
      show (ps.getD i "", decodedValueAt [] i) =
        ((p :: ps).getD (i + 1) "", decodedValueAt [] (i + 1))
      rw [List.getD_cons_succ, decodedValueAt_nil_parts, decodedValueAt_nil_parts]
    | cons part parts2 =>
      cases parts2 with
      | nil =>
        show (p, if part.isEmpty then none else some (unescapeAttr ⟨part⟩)) ::
            assignProps ps [] = _
        rw [show (p :: ps).length = ps.length + 1 from rfl, hr, List.map_cons, List.map_map]
        have hhead : (p, if part.isEmpty then none else some (unescapeAttr ⟨part⟩)) =
            ((p :: ps).getD 0 "", decodedValueAt [part] 0) := by
          cases part with
          | nil => rfl
          | cons c cs => rfl
        rw [hhead]
        congr 1
        rw [ih [] (Nat.zero_le _)]
        refine List.map_congr_left fun i _ => ?_
        show (ps.getD i "", decodedValueAt [] i) =
          ((p :: ps).getD (i + 1) "", decodedValueAt [part] (i + 1))
        rw [List.getD_cons_succ, decodedValueAt_succ]
      | cons part2 parts3 =>
        show (p, some (unescapeAttr ⟨part⟩)) :: assignProps ps (part2 :: parts3) = _
        rw [show (p :: ps).length = ps.length + 1 from rfl, hr, List.map_cons, List.map_map]
        congr 1
        rw [ih (part2 :: parts3) (Nat.le_of_succ_le_succ h)]
        refine List.map_congr_left fun i _ => ?_
        show (ps.getD i "", decodedValueAt (part2 :: parts3) i) =
          ((p :: ps).getD (i + 1) "", decodedValueAt (part :: part2 :: parts3) (i + 1))
        rw [List.getD_cons_succ, decodedValueAt_succ]

/-! ## The claims -/

/-- C1 (amended): for every descriptor whose `keyProps` is a defined list and
whose dash-name is colon-free, and every property map giving each declared
property a present, nonempty value made only of letters and digits,
`keyToProps` after `propsToKey` recovers exactly `normalizeProps` of the map. -/
theorem c1_roundTrip_nonempty_values (cn ty : String) (ps : List String) (m : ServiceProps)
    (hd : ':' ∉ (toDashName ty).data)
    (hm : ∀ p ∈ ps, presentLetterDigit m p = true) :
    ∃ k, propsToKey ⟨cn, ty, some ps⟩ m = .ok k ∧
         keyToProps ⟨cn, ty, some ps⟩ k = .ok (normalizeProps ps m) := by
  obtain ⟨segs, hok, hlen, hprop, hassign⟩ := segmentsOf_spec ps m hm
  refine ⟨toDashName ty ++ ":" ++ joinColon segs, ?_, ?_⟩
  · show keyFromSegments (toDashName ty) (segmentsOf ps m) = _
    rw [hok]
    rfl
  · have heta : joinColon segs = ((⟨(joinColon segs).data⟩ : String)) := string_ext rfl
    rw [heta, keyToProps_split cn ty ps _ hd, splitSegments_join segs hprop]
    have hlt : ¬ (ps.length < (List.map String.data segs).length) := by
      rw [List.length_map, hlen]
      exact lt_irrefl _
    rw [if_neg hlt, hassign]

/-- C1 witness: a concrete instance of the amended round trip. -/
theorem c1_roundTrip_nonempty_values_witness :
    ∃ k, propsToKey ⟨"MockService", "myService", some ["a", "propB", "c"]⟩
          [("a", some "12"), ("propB", some "x3"), ("c", some "AA")] = .ok k ∧
        keyToProps ⟨"MockService", "myService", some ["a", "propB", "c"]⟩ k =
          .ok (normalizeProps ["a", "propB", "c"]
            [("a", some "12"), ("propB", some "x3"), ("c", some "AA")]) :=
  c1_roundTrip_nonempty_values "MockService" "myService" ["a", "propB", "c"]
    [("a", some "12"), ("propB", some "x3"), ("c", some "AA")] (by decide) (by decide)

/-- C1 counterexample: with the two-property descriptor `TwoD`, the map
sending `b` to the empty string (a string of letters and digits only, with
`a` absent) encodes to `two::`, which decodes to `a = ""`, `b = null` —
not to `normalizeProps` of the map, which keeps `a = null`, `b = ""`. -/
theorem c1_counterexample :
    ("" : String).data.all isLetterOrDigitChar = true ∧
    propsToKey TwoD [("b", some "")] = .ok "two::" ∧
    keyToProps TwoD "two::" = .ok [("a", some ""), ("b", none)] ∧
    normalizeProps ["a", "b"] [("b", some "")] = [("a", none), ("b", some "")] ∧
    keyToProps TwoD "two::" ≠ .ok (normalizeProps ["a", "b"] [("b", some "")]) := by
  refine ⟨by decide, by decide, by decide, by decide, by decide⟩

/-- C2 (amended): the decoder splits the remainder after the first `:` on `:`,
except that an empty remainder yields zero segments; a nonempty remainder
with N occurrences of `:` yields N+1 segments; the value of the declared
property at position i is the unescaped segment at i, except that an empty
segment in final position yields `null` (an empty non-final segment yields
the empty string), and a missing segment yields `null`.  In particular
decoding `<dash-name>:` yields `null` (not the empty string) for the first
property. -/
theorem c2_decoder_segmentation (cn ty : String) (ps : List String) (rest : List Char)
    (hd : ':' ∉ (toDashName ty).data)
    (hlen : (splitSegments rest).length ≤ ps.length) :
    keyToProps ⟨cn, ty, some ps⟩ (toDashName ty ++ ":" ++ (⟨rest⟩ : String)) =
      .ok ((List.range ps.length).map
        (fun i => (ps.getD i "", decodedValueAt (splitSegments rest) i))) ∧
    (rest ≠ [] → (splitSegments rest).length = rest.count ':' + 1) := by
  constructor
  · rw [keyToProps_split cn ty ps rest hd, if_neg (Nat.not_lt.mpr hlen)]
    rw [assignProps_eq_positional ps _ hlen]
  · intro hne
    unfold splitSegments
    rw [if_neg hne]
    exact splitOnColon_length rest

/-- C2 witness: the amended decoder description at a concrete key. -/
theorem c2_decoder_segmentation_witness :
    keyToProps ⟨"MockService", "myService", some ["a", "propB", "c"]⟩
        (toDashName "myService" ++ ":" ++ (⟨"1".data⟩ : String)) =
      .ok ((List.range (["a", "propB", "c"] : List String).length).map
        (fun i => ((["a", "propB", "c"] : List String).getD i "",
          decodedValueAt (splitSegments "1".data) i))) ∧
    ("1".data ≠ [] → (splitSegments "1".data).length = "1".data.count ':' + 1) :=
  c2_decoder_segmentation "MockService" "myService" ["a", "propB", "c"] "1".data
    (by decide) (by decide)

/-- C2 counterexample: decoding `my-service:` (empty remainder) against the
three-property `MockService` descriptor yields `null` for the first declared
property, not the empty string the claim requires. -/
theorem c2_counterexample :
    keyToProps MockD "my-service:" = .ok [("a", none), ("propB", none), ("c", none)] ∧
    keyToProps MockD "my-service:" ≠ .ok [("a", some ""), ("propB", none), ("c", none)] := by
  refine ⟨by decide, by decide⟩

/-- C3: `keyToProps` distinguishes an absent trailing segment from an empty
one — `k:` with one declared property decodes to `null`, while `k::` with
two declared properties decodes to the empty string for the first property
and `null` for the second. -/
theorem c3_absent_vs_empty (cn p1 p2 : String) :
    keyToProps ⟨cn, "k", some [p1]⟩ "k:" = .ok [(p1, none)] ∧
    keyToProps ⟨cn, "k", some [p1, p2]⟩ "k::" = .ok [(p1, some ""), (p2, none)] := by
  constructor
  · rfl
  · rfl

/-- C4 counterexample: the key `other-service:::::` has five value segments,
more than `MockService` declares, yet `keyToProps` fails with `KindMismatch`
(the kind gate runs first), not with `TooManySegments` as the claim requires. -/
theorem c4_counterexample :
    keyToProps MockD "other-service:::::" =
      .error (.kindMismatch "other-service:::::" "other-service" "MockService" "my-service") ∧
    (["a", "propB", "c"] : List String).length < (splitSegments ("::::".data)).length ∧
    (∀ s ps k, keyToProps MockD "other-service:::::" ≠ .error (.tooManySegments s ps k)) := by
  refine ⟨by decide, by decide, ?_⟩
  intro s ps k h
  rw [show keyToProps MockD "other-service:::::" =
      .error (.kindMismatch "other-service:::::" "other-service" "MockService" "my-service")
    from by decide] at h
  exact QError.noConfusion (Except.error.inj h)

/-- C4 (amended): for every descriptor with defined `keyProps` and colon-free
dash-name and every key whose kind token equals that dash-name and whose
number of value segments exceeds `keyProps.length`, `keyToProps` fails with
`TooManySegments` regardless of segment content, and the message carries the
declared `keyProps` list and the literal offending key. -/
theorem c4_segment_bound (cn ty : String) (ps : List String) (rest : List Char)
    (hd : ':' ∉ (toDashName ty).data)
    (hlen : ps.length < (splitSegments rest).length) :
    keyToProps ⟨cn, ty, some ps⟩ (toDashName ty ++ ":" ++ (⟨rest⟩ : String)) =
      .error (.tooManySegments cn ps (toDashName ty ++ ":" ++ (⟨rest⟩ : String))) ∧
    qErrorMessage (.tooManySegments cn ps (toDashName ty ++ ":" ++ (⟨rest⟩ : String))) =
      "SERVICE-ERROR(Q-314): Service '" ++ cn ++ "' defines '$keyProps' as  '" ++
      jsonStringList ps ++ "'. Actual key '" ++ (toDashName ty ++ ":" ++ (⟨rest⟩ : String)) ++
      "' has more parts than service defines." := by
  constructor
  · rw [keyToProps_split cn ty ps rest hd, if_pos hlen]
  · rfl

/-- C4 witness: the segment bound at the tested key `my-service::::`. -/
theorem c4_segment_bound_witness :
    keyToProps ⟨"MockService", "myService", some ["a", "propB", "c"]⟩
        (toDashName "myService" ++ ":" ++ (⟨":::".data⟩ : String)) =
      .error (.tooManySegments "MockService" ["a", "propB", "c"]
        (toDashName "myService" ++ ":" ++ (⟨":::".data⟩ : String))) ∧
    qErrorMessage (.tooManySegments "MockService" ["a", "propB", "c"]
        (toDashName "myService" ++ ":" ++ (⟨":::".data⟩ : String))) =
      "SERVICE-ERROR(Q-314): Service '" ++ "MockService" ++ "' defines '$keyProps' as  '" ++
      jsonStringList ["a", "propB", "c"] ++ "'. Actual key '" ++
      (toDashName "myService" ++ ":" ++ (⟨":::".data⟩ : String)) ++
      "' has more parts than service defines." :=
  c4_segment_bound "MockService" "myService" ["a", "propB", "c"] ":::".data
    (by decide) (by decide)

/-- C5: for every descriptor with defined `keyProps` and every key containing
`:` whose kind token (the part before the first `:`) differs from the
descriptor's dash-name, `keyToProps` fails with `KindMismatch` whatever the
rest of the key holds, and the message names the found token, the expected
token and the descriptor's identifying name. -/
theorem c5_kind_gate (cn ty : String) (ps : List String) (tok rest : List Char)
    (htok : ':' ∉ tok)
    (hne : (⟨tok⟩ : String) ≠ toDashName ty) :
    keyToProps ⟨cn, ty, some ps⟩ (⟨tok ++ ':' :: rest⟩ : String) =
      .error (.kindMismatch (⟨tok ++ ':' :: rest⟩ : String) (⟨tok⟩ : String) cn
        (toDashName ty)) ∧
    qErrorMessage (.kindMismatch (⟨tok ++ ':' :: rest⟩ : String) (⟨tok⟩ : String) cn
        (toDashName ty)) =
      "SERVICE-ERROR(Q-315): Key '" ++ (⟨tok ++ ':' :: rest⟩ : String) ++
      "' belongs to service named '" ++ (⟨tok⟩ : String) ++ "', but expected service '" ++
      cn ++ "' with name '" ++ toDashName ty ++ "'." := by
  constructor
  · cases hs : splitOnColon rest with
    | nil => exact absurd hs (splitOnColon_ne_nil rest)
    | cons s ss =>
      have hsplit : splitOnColon ((⟨tok ++ ':' :: rest⟩ : String)).data = tok :: s :: ss := by
        show splitOnColon (tok ++ ':' :: rest) = tok :: s :: ss
        rw [splitOnColon_first tok rest htok, hs]
      rw [keyToProps_eq_checked cn ty ps _ _ _ _ hsplit]
      unfold keyToPropsChecked
      rw [if_neg hne]
  · rfl

/-- C5 witness: the kind gate at the tested key `other-service:`. -/
theorem c5_kind_gate_witness :
    keyToProps ⟨"MockService", "myService", some ["a", "propB", "c"]⟩
        (⟨"other-service".data ++ ':' :: ([] : List Char)⟩ : String) =
      .error (.kindMismatch (⟨"other-service".data ++ ':' :: ([] : List Char)⟩ : String)
        (⟨"other-service".data⟩ : String) "MockService" (toDashName "myService")) ∧
    qErrorMessage (.kindMismatch (⟨"other-service".data ++ ':' :: ([] : List Char)⟩ : String)
        (⟨"other-service".data⟩ : String) "MockService" (toDashName "myService")) =
      "SERVICE-ERROR(Q-315): Key '" ++ (⟨"other-service".data ++ ':' :: ([] : List Char)⟩ : String) ++
      "' belongs to service named '" ++ (⟨"other-service".data⟩ : String) ++
      "', but expected service '" ++ "MockService" ++ "' with name '" ++
      toDashName "myService" ++ "'." :=
  c5_kind_gate "MockService" "myService" ["a", "propB", "c"] "other-service".data []
    (by decide) (by decide)

/-- C6: for every string containing only letters and digits, unescaping the
escaped form restores the original — `unescapeAttr (escapeAttr s) = s`. -/
theorem c6_escape_invertible (s : String) (h : s.data.all isLetterOrDigitChar = true) :
    unescapeAttr (escapeAttr s) = s :=
  unescapeAttr_escapeAttr s h

/-- C6 witness: invertibility at a concrete mixed-case alphanumeric string. -/
theorem c6_escape_invertible_witness :
    ("aA0Zz9" : String).data.all isLetterOrDigitChar = true ∧
    unescapeAttr (escapeAttr "aA0Zz9") = "aA0Zz9" :=
  ⟨by decide, c6_escape_invertible "aA0Zz9" (by decide)⟩

/-- C7: `validateKeyPart` returns its argument unchanged (including the empty
string) when every character lies in `[a-z0-9_-]`, and fails with
`InvalidAttributeChar` naming the offending string verbatim exactly when
some character lies outside that alphabet. -/
theorem c7_validateKeyPart_spec (s : String) :
    (s.data.all isValidAttrChar = true → validateKeyPart s = .ok s) ∧
    (s.data.all isValidAttrChar = false →
      validateKeyPart s = .error (.invalidAttributeChar s) ∧
      qErrorMessage (.invalidAttributeChar s) =
        "SERVICE-ERROR(Q-303): '" ++ s ++
        "' is not a valid attribute. Attributes can only contain 'a-z' (lowercase), '0-9', '-' and '_'.") ∧
    validateKeyPart "" = .ok "" := by
  refine ⟨?_, ?_, rfl⟩
  · intro h
    unfold validateKeyPart
    rw [if_pos h]
  · intro h
    refine ⟨?_, rfl⟩
    unfold validateKeyPart
    rw [if_neg (by simp [h])]

/-- C7 witness: the validator at the tested inputs `with_under-dash` and
`with.dot`. -/
theorem c7_validateKeyPart_witness :
    validateKeyPart "with_under-dash" = .ok "with_under-dash" ∧
    validateKeyPart "with.dot" = .error (.invalidAttributeChar "with.dot") ∧
    qErrorMessage (.invalidAttributeChar "with.dot") =
      "SERVICE-ERROR(Q-303): '" ++ "with.dot" ++
      "' is not a valid attribute. Attributes can only contain 'a-z' (lowercase), '0-9', '-' and '_'." :=
  ⟨(c7_validateKeyPart_spec "with_under-dash").1 (by decide),
   ((c7_validateKeyPart_spec "with.dot").2.1 (by decide)).1,
   ((c7_validateKeyPart_spec "with.dot").2.1 (by decide)).2⟩

/-- C8: `keyToServiceAttribute` fails with `InvalidKeyFormat` — a multi-line
diagnostic covering the allowed characters, the kind prefix and the
`:`-separated structure — exactly when the key contains no `:` at all, and
otherwise returns the canonicalized wrapper around the substring before the
first `:`. -/
theorem c8_kind_extractor (key : String) :
    (':' ∉ key.data →
      keyToServiceAttribute key = .error (.invalidKeyFormat key) ∧
      qErrorMessage (.invalidKeyFormat key) =
        "SERVICE-ERROR(Q-300): Data key '" ++ key ++ "' is not a valid key.\n" ++
        "  - Data key can only contain characters (preferably lowercase) or number\n" ++
        "  - Data key is prefixed with service name\n" ++
        "  - Data key is made up from parts that are separated with ':'.") ∧
    (∀ tok rest : List Char, key = ⟨tok ++ ':' :: rest⟩ → ':' ∉ tok →
      keyToServiceAttribute key = .ok ("::" ++ (⟨tok⟩ : String))) := by
  constructor
  · intro h
    exact ⟨ktsa_no_colon key h, rfl⟩
  · intro tok rest hkey htok
    subst hkey
    cases hs : splitOnColon rest with
    | nil => exact absurd hs (splitOnColon_ne_nil rest)
    | cons s ss =>
      apply ktsa_of_split _ tok s ss
      show splitOnColon (tok ++ ':' :: rest) = tok :: s :: ss
      rw [splitOnColon_first tok rest htok, hs]

/-- C8 witness: the extractor at the tested keys `foo` and `bar:baz`. -/
theorem c8_kind_extractor_witness :
    keyToServiceAttribute "foo" = .error (.invalidKeyFormat "foo") ∧
    qErrorMessage (.invalidKeyFormat "foo") =
      "SERVICE-ERROR(Q-300): Data key '" ++ "foo" ++ "' is not a valid key.\n" ++
      "  - Data key can only contain characters (preferably lowercase) or number\n" ++
      "  - Data key is prefixed with service name\n" ++
      "  - Data key is made up from parts that are separated with ':'." ∧
    keyToServiceAttribute "bar:baz" = .ok ("::" ++ (⟨"bar".data⟩ : String)) :=
  ⟨((c8_kind_extractor "foo").1 (by decide)).1,
   ((c8_kind_extractor "foo").1 (by decide)).2,
   (c8_kind_extractor "bar:baz").2 "bar".data "baz".data rfl (by decide)⟩

/-- C9: for every input containing at least one `:`, `keyToServiceAttribute`
returns exactly the two-character marker `::` followed by the substring
before the first `:` (prefix-only wrapping, no trailing delimiter); the input
`:` has an empty kind token, is not an error, and yields `::`. -/
theorem c9_extractor_exact_form (tok rest : List Char) (htok : ':' ∉ tok) :
    keyToServiceAttribute (⟨tok ++ ':' :: rest⟩ : String) = .ok ("::" ++ (⟨tok⟩ : String)) ∧
    keyToServiceAttribute ":" = .ok "::" := by
  constructor
  · cases hs : splitOnColon rest with
    | nil => exact absurd hs (splitOnColon_ne_nil rest)
    | cons s ss =>
      apply ktsa_of_split _ tok s ss
      show splitOnColon (tok ++ ':' :: rest) = tok :: s :: ss
      rw [splitOnColon_first tok rest htok, hs]
  · rfl

/-- C9 witness: the exact canonical form at the tested key `bar:baz:qoot`
and at the bare separator `:`. -/
theorem c9_extractor_exact_form_witness :
    keyToServiceAttribute (⟨"bar".data ++ ':' :: "baz:qoot".data⟩ : String) =
      .ok ("::" ++ (⟨"bar".data⟩ : String)) ∧
    keyToServiceAttribute ":" = .ok "::" :=
  ⟨(c9_extractor_exact_form "bar".data "baz:qoot".data (by decide)).1,
   (c9_extractor_exact_form "bar".data "baz:qoot".data (by decide)).2⟩

set_option maxRecDepth 8000 in
/-- C10: every fault's message begins with the fixed machine-checkable code
`SERVICE-ERROR(Q-NNN):`, with the fixed mapping per fault kind
(`InvalidKeyFormat` 300, `InvalidAttributeChar` 303, `MissingValues` 309,
`MissingKeyProps` 311, `TooManySegments` 314, `KindMismatch` 315,
`MissingStateKey` 316); every operation renders its faults through this one
message function, so a fault kind carries the same code everywhere. -/
theorem c10_stable_fault_codes (e : QError) :
    ∃ s : String, qErrorMessage e =
      "SERVICE-ERROR(" ++
      (match e with
       | .invalidKeyFormat _ => "Q-300"
       | .invalidAttributeChar _ => "Q-303"
       | .missingValues _ => "Q-309"
       | .missingKeyProps _ => "Q-311"
       | .tooManySegments _ _ _ => "Q-314"
       | .kindMismatch _ _ _ _ => "Q-315"
       | .missingStateKey _ => "Q-316") ++ "):" ++ s := by
  cases e with
  | invalidKeyFormat key =>
    exact ⟨" Data key '" ++ key ++ "' is not a valid key.\n" ++
      "  - Data key can only contain characters (preferably lowercase) or number\n" ++
      "  - Data key is prefixed with service name\n" ++
      "  - Data key is made up from parts that are separated with ':'.",
      string_ext (by simp [qErrorMessage, data_append, List.append_assoc])⟩
  | invalidAttributeChar attr =>
    exact ⟨" '" ++ attr ++
      "' is not a valid attribute. Attributes can only contain 'a-z' (lowercase), '0-9', '-' and '_'.",
      string_ext (by simp [qErrorMessage, data_append, List.append_assoc])⟩
  | missingValues key =>
    exact ⟨" Service key '" ++ key ++ "' is missing values. Expecting '" ++ key ++ ":someValue'.",
      string_ext (by simp [qErrorMessage, data_append, List.append_assoc])⟩
  | missingKeyProps serviceName =>
    exact ⟨" Service '" ++ serviceName ++ "' does not define '$keyProps'.",
      string_ext (by simp [qErrorMessage, data_append, List.append_assoc])⟩
  | tooManySegments serviceName props key =>
    exact ⟨" Service '" ++ serviceName ++ "' defines '$keyProps' as  '" ++
      jsonStringList props ++ "'. Actual key '" ++ key ++ "' has more parts than service defines.",
      string_ext (by simp [qErrorMessage, data_append, List.append_assoc])⟩
  | kindMismatch key fnd serviceName expected =>
    exact ⟨" Key '" ++ key ++ "' belongs to service named '" ++ fnd ++
      "', but expected service '" ++ serviceName ++ "' with name '" ++ expected ++ "'.",
      string_ext (by simp [qErrorMessage, data_append, List.append_assoc])⟩
  | missingStateKey state =>
    exact ⟨" Service state is missing '$key'. Are you sure you passed in state? Got '" ++
      state ++ "'.",
      string_ext (by simp [qErrorMessage, data_append, List.append_assoc])⟩

/-- C3 witness: the absent-versus-empty distinction at concrete descriptors. -/
theorem c3_absent_vs_empty_witness :
    keyToProps ⟨"KService", "k", some ["p1"]⟩ "k:" = .ok [("p1", none)] ∧
    keyToProps ⟨"KService", "k", some ["p1", "p2"]⟩ "k::" =
      .ok [("p1", some ""), ("p2", none)] :=
  c3_absent_vs_empty "KService" "p1" "p2"

/-- C10 witness: the code prefix at a concrete fault value. -/
theorem c10_stable_fault_codes_witness :
    ∃ s : String, qErrorMessage (.missingKeyProps "MissingKeyPropsService") =
      "SERVICE-ERROR(" ++ "Q-311" ++ "):" ++ s :=
  c10_stable_fault_codes (.missingKeyProps "MissingKeyPropsService")
